import Mathlib

/-!
Shallow embedding of the Gemini OCR pipeline
(`src/pipelines/OCR_gemini/step_1_ocr_pipeline.py` and
`src/pipelines/OCR_gemini/vertex_ai_client.py`).

Conventions of the embedding:
* Python strings are Lean `String`s; `str.strip` / `str.split` are modelled
  on the underlying character list.
* External effects (opening the PDF, rendering a page image, the remote
  recognition call, writing a JSON artifact) are driven by oracle records
  (`PageOracle`, `DocOracle`) that say how each external call would behave,
  and the side effects actually performed are collected in `PageEffects`.
* Timestamps (`datetime.now()`), log lines and file-path strings are not
  modelled; they do not enter any claim.
* `ThreadPoolExecutor`/`as_completed` completion order is serialised in page
  order; all aggregated quantities proved below are order-independent counters.
-/

namespace OCRGemini

/-- `MIN_TEXT_LENGTH` constant of the pipeline (module-level, line 42). -/
def MIN_TEXT_LENGTH : Nat := 50

/-- `MIN_WORDS` constant of the pipeline (module-level, line 43). -/
def MIN_WORDS : Nat := 10

/-- Characters treated as whitespace by Python's `str.strip()` / `str.split()`
(ASCII fragment; the corpus relevant here is ASCII). -/
def isPyWhitespace (c : Char) : Bool :=
  c = ' ' || c = '\t' || c = '\n' || c = '\r' || c = '\x0b' || c = '\x0c'

/-- Python `str.strip()`: drop leading and trailing whitespace. -/
def pyStrip (l : List Char) : List Char :=
  ((l.dropWhile isPyWhitespace).reverse.dropWhile isPyWhitespace).reverse

/-- Helper for `pySplitLen`: count maximal non-whitespace runs; the flag
records whether we are currently inside a word. -/
def wordCountAux : List Char → Bool → Nat
  | [], _ => 0
  | c :: rest, inWord =>
    if isPyWhitespace c then wordCountAux rest false
    else (if inWord then 0 else 1) + wordCountAux rest true

/-- `len(s.split())` in Python: number of whitespace-separated words. -/
def pySplitLen (l : List Char) : Nat := wordCountAux l false

/-- `GeminiOCRPipeline.check_page_has_text` (lines 66-71): the extraction
method selector.  `text` is `page.get_text()`.  Returns `true` exactly when
the stripped text has at least `MIN_TEXT_LENGTH` characters and at least
`MIN_WORDS` whitespace-separated words. -/
def check_page_has_text (text : String) : Bool :=
  let text_cleaned := pyStrip text.data
  decide (text_cleaned.length ≥ MIN_TEXT_LENGTH) &&
    decide (pySplitLen text_cleaned ≥ MIN_WORDS)

/-- One entry of `self.errors` (timestamp field dropped: not modelled).
`page = none` is the `'N/A'` sentinel used for document-level failures. -/
structure ErrorRecord where
  pdf_file : String
  page : Option Nat
  stage : String
  error : String
deriving DecidableEq, Repr

/-- The `structure` sub-dictionary of a result (field named `structure_info`
here because `structure` is a Lean keyword). -/
structure StructureInfo where
  has_headings : Bool
  has_tables : Bool
  has_lists : Bool
  has_images : Bool
  document_type : String
deriving DecidableEq, Repr

/-- The all-false structure dictionary used by the JSON-parse fallback in
`VertexAIGeminiClient.generate` (lines 165-171). -/
def fallbackStructure : StructureInfo :=
  ⟨false, false, false, false, "unknown"⟩

/-- The dictionary returned by `VertexAIGeminiClient.generate` before the
pipeline overwrites `metadata` (table/image payloads abstracted to strings). -/
structure GenResult where
  text : String
  headings : List String
  tables : List String
  images : List String
  structure_info : StructureInfo
  raw_response : Option String
deriving DecidableEq, Repr

/-- Outcome of the remote `model.generate_content` call plus `json.loads` on
the fence-stripped response: either the call raises (`fail`), or it returns
raw text `raw` whose parse result is `parsed` (`none` = `json.JSONDecodeError`;
`some p` holds the five `parsed_result.get` projections, defaults applied). -/
inductive RecOutcome where
  | fail (msg : String)
  | response (raw : String) (parsed : Option GenResult)
deriving DecidableEq, Repr

/-- `VertexAIGeminiClient.generate` (vertex_ai_client.py lines 93-179):
on a successful call, a parseable response yields the parsed fields with
`raw_response` set; an unparseable response yields the fallback result whose
`text` is the raw response, lists empty, structure booleans all false, and
`raw_response` set; a failed call re-raises (modelled as `Except.error`). -/
def generate : RecOutcome → Except String GenResult
  | .fail msg => .error msg
  | .response raw parsed =>
    match parsed with
    | some p =>
      .ok ⟨p.text, p.headings, p.tables, p.images, p.structure_info, some raw⟩
    | none =>
      .ok ⟨raw, [], [], [], fallbackStructure, some raw⟩

/-- A persisted page result: `GenResult` plus the `metadata` dictionary
written by `_process_page_image_async` (lines 179-187); `processed_at` and
`image_path` dropped (timestamp / path strings). -/
structure OCRResult where
  text : String
  headings : List String
  tables : List String
  images : List String
  structure_info : StructureInfo
  pdf_name : String
  page_number : Nat
  dpi : Option Nat
  extraction_method : String
  ocr_engine : String
  raw_response : Option String
deriving DecidableEq, Repr

/-- Metadata attachment performed by `_process_page_image_async`. -/
def addMetadata (g : GenResult) (pdf_name : String) (page_num : Nat) : OCRResult :=
  ⟨g.text, g.headings, g.tables, g.images, g.structure_info,
   pdf_name, page_num, some 300, "gemini_2.5_flash_ocr", "gemini-2.5-flash",
   g.raw_response⟩

/-- `GeminiOCRPipeline.process_page_image` (lines 192-215): runs the
rate-limited recognition call; on an exception it appends an `ErrorRecord`
with stage `gemini_ocr_processing` and returns `None`. -/
def process_page_image (o : RecOutcome) (pdf_name : String) (page_num : Nat) :
    Option OCRResult × List ErrorRecord :=
  match generate o with
  | .ok g => (some (addMetadata g pdf_name page_num), [])
  | .error e =>
    (none, [⟨pdf_name ++ ".pdf", some page_num, "gemini_ocr_processing", e⟩])

/-- `GeminiOCRPipeline.save_page_result` (lines 217-240): writes the artifact
`{page_num}.json`; on failure appends an `ErrorRecord` with stage
`save_result` and swallows the exception.  Returns (artifacts written,
errors appended). -/
def save_page_result (saveOk : Bool) (r : OCRResult) (pdf_name : String)
    (page_num : Nat) : List (Nat × OCRResult) × List ErrorRecord :=
  if saveOk then ([(page_num, r)], [])
  else ([], [⟨pdf_name ++ ".pdf", some page_num, "save_result", "save failed"⟩])

/-- Oracle describing how the external world behaves for one page:
whether `fitz.open`/page access succeeds, whether rendering the page image
succeeds, the outcome of the recognition call, whether the JSON write
succeeds, and the page's embedded text (`page.get_text()`). -/
structure PageOracle where
  openOk : Bool
  renderOk : Bool
  recognition : RecOutcome
  saveOk : Bool
  embeddedText : String
deriving DecidableEq, Repr

/-- The dictionary returned by `process_single_page`. -/
structure PageResult where
  page : Nat
  success : Bool
  error : Option String
  skipped : Bool
deriving DecidableEq, Repr

/-- Side effects performed while processing pages: number of per-page
`fitz.open` calls, page-image renders, recognition calls issued
(attempted, whether or not they succeed), artifacts written (page index
with content), and error records appended. -/
structure PageEffects where
  opens : Nat
  renders : Nat
  recogCalls : Nat
  wrote : List (Nat × OCRResult)
  errors : List ErrorRecord
deriving DecidableEq, Repr

/-- The empty effect. -/
def noEffects : PageEffects := ⟨0, 0, 0, [], []⟩

/-- Effect accumulation. -/
def addEff (a b : PageEffects) : PageEffects :=
  ⟨a.opens + b.opens, a.renders + b.renders, a.recogCalls + b.recogCalls,
   a.wrote ++ b.wrote, a.errors ++ b.errors⟩

/-- `GeminiOCRPipeline.process_single_page` (lines 242-279).  `fs` is the set
of page indices (1-based) whose artifact `{index}.json` already exists;
`page_num` is 0-based as in the Python `range` loop.  Faithful branch
structure: (1) idempotency check returns a skipped success with no effects;
(2) `fitz.open`/page access failure is caught and returned as a failure;
(3) render failure likewise (after the open); (4) otherwise the recognition
call runs: `None` becomes the failure `'OCR returned no result'`, a result is
saved (save failure swallowed) and the page reported as a success. -/
def process_single_page (fs : List Nat) (o : PageOracle) (pdf_name : String)
    (page_num : Nat) : PageResult × PageEffects :=
  let page_index := page_num + 1
  if fs.contains page_index then
    (⟨page_index, true, none, true⟩, noEffects)
  else if o.openOk = false then
    (⟨page_index, false, some "open failed", false⟩, ⟨1, 0, 0, [], []⟩)
  else if o.renderOk = false then
    (⟨page_index, false, some "render failed", false⟩, ⟨1, 1, 0, [], []⟩)
  else
    match process_page_image o.recognition pdf_name page_index with
    | (some r, errs) =>
      let saved := save_page_result o.saveOk r pdf_name page_index
      (⟨page_index, true, none, false⟩,
       ⟨1, 1, 1, saved.1, errs ++ saved.2⟩)
    | (none, errs) =>
      (⟨page_index, false, some "OCR returned no result", false⟩,
       ⟨1, 1, 1, [], errs⟩)

/-- Oracle for one document: its stem name, whether the per-document results
directory `gemini25flash/{pdf_name}` exists, whether `fitz.open` on the PDF
succeeds, the 1-based page indices whose artifact `{index}.json` already
exists in that directory, and the per-page oracles (`pages.length` is the
PDF's page count). -/
structure DocOracle where
  pdf_name : String
  resultsDirExists : Bool
  openOk : Bool
  fs : List Nat
  pages : List PageOracle
deriving DecidableEq, Repr

/-- `GeminiOCRPipeline.is_pdf_already_processed` (lines 281-308): returns
`(is_complete, total_pages, existing_page_count)`; missing results directory
or an unopenable PDF yield `(false, 0, 0)`; otherwise complete means
`existing_page_count >= total_pages`. -/
def is_pdf_already_processed (d : DocOracle) : Bool × Nat × Nat :=
  if d.resultsDirExists = false then (false, 0, 0)
  else if d.openOk = false then (false, 0, 0)
  else (decide (d.fs.length ≥ d.pages.length), d.pages.length, d.fs.length)

/-- The per-document stats dictionary (`start_time`/`end_time` dropped).
The skip path in the source builds a dictionary without a `skipped_pages`
key; the corpus aggregation reads it with `.get('skipped_pages', 0)`, so it
is modelled as the field set to `0` there. -/
structure DocStats where
  pdf_name : String
  total_pages : Nat
  successful_pages : Nat
  failed_pages : Nat
  conventional_pages : Nat
  gemini_ocr_pages : Nat
  skipped_pages : Nat
  status : String
deriving DecidableEq, Repr

/-- The page loop of `process_pdf` (lines 364-374): one `process_single_page`
call per `page_num` in `range(total_pages)`, serialised in page order. -/
def runPages (fs : List Nat) (pdf_name : String) :
    List PageOracle → Nat → List (PageResult × PageEffects)
  | [], _ => []
  | o :: rest, start =>
    process_single_page fs o pdf_name start :: runPages fs pdf_name rest (start + 1)

/-- One step of the outcome-collection loop of `process_pdf` (lines 376-393):
a successful result increments `successful_pages` and one of
`skipped_pages` / `gemini_ocr_pages`; a failed result increments
`failed_pages` and appends an `ErrorRecord` with stage `page_processing`. -/
def stepStats (pdf_file : String) (acc : DocStats × List ErrorRecord)
    (pr : PageResult) : DocStats × List ErrorRecord :=
  if pr.success then
    if pr.skipped then
      ({acc.1 with successful_pages := acc.1.successful_pages + 1,
                   skipped_pages := acc.1.skipped_pages + 1}, acc.2)
    else
      ({acc.1 with successful_pages := acc.1.successful_pages + 1,
                   gemini_ocr_pages := acc.1.gemini_ocr_pages + 1}, acc.2)
  else
    ({acc.1 with failed_pages := acc.1.failed_pages + 1},
     acc.2 ++ [⟨pdf_file, some pr.page, "page_processing",
                pr.error.getD ""⟩])

/-- `GeminiOCRPipeline.process_pdf` (lines 310-418).  Returns the stats and
the accumulated effects (page effects plus scheduler error records; errors
appended by the workers and by the collection loop are concatenated — only
their multiset matters to any claim).  The skip path (lines 321-335) returns
immediately; an unopenable PDF yields status `failed` with a `pdf_open`
error (lines 398-408); otherwise all pages run and the final status is
`completed` or `completed_with_errors` by `failed_pages` (line 396). -/
def process_pdf (d : DocOracle) : DocStats × PageEffects :=
  let pre := is_pdf_already_processed d
  if pre.1 then
    (⟨d.pdf_name, pre.2.1, pre.2.2, 0, 0, pre.2.2, 0,
      "skipped_already_processed"⟩, noEffects)
  else if d.openOk = false then
    (⟨d.pdf_name, 0, 0, 0, 0, 0, 0, "failed"⟩,
     ⟨0, 0, 0, [],
      [⟨d.pdf_name ++ ".pdf", none, "pdf_open", "open failed"⟩]⟩)
  else
    let results := runPages d.fs d.pdf_name d.pages 0
    let init : DocStats :=
      ⟨d.pdf_name, d.pages.length, 0, 0, 0, 0, 0, "processing"⟩
    let collected := results.foldl
      (fun acc pr => stepStats (d.pdf_name ++ ".pdf") acc pr.1) (init, [])
    let stats :=
      {collected.1 with status :=
        if collected.1.failed_pages = 0 then "completed"
        else "completed_with_errors"}
    let eff := results.foldl (fun e pr => addEff e pr.2) noEffects
    (stats, {eff with errors := eff.errors ++ collected.2})

/-- The document oracle describing the filesystem after `process_pdf d` ran:
the artifacts written join the existing ones, and the results directory
exists as soon as something was written into it (a save attempt creates it
via `mkdir(parents=True, exist_ok=True)`). -/
def afterRun (d : DocOracle) : DocOracle :=
  let eff := (process_pdf d).2
  {d with resultsDirExists := d.resultsDirExists || !eff.wrote.isEmpty,
          fs := d.fs ++ eff.wrote.map Prod.fst}

/-- The corpus-level counters of `overall_stats` in `process_all_pdfs`
(lines 436-448; `start_time`/`end_time`/`pdf_details` dropped —
`pdf_details` is a list, not a counter). -/
structure RunCounters where
  total_pdfs : Nat
  processed_pdfs : Nat
  skipped_pdfs : Nat
  total_pages : Nat
  successful_pages : Nat
  failed_pages : Nat
  conventional_pages : Nat
  gemini_ocr_pages : Nat
  skipped_pages : Nat
deriving DecidableEq, Repr

/-- One step of the corpus collection loop (lines 457-479): a document whose
`future.result()` raised only appends an error record (counters unchanged);
a returned `DocStats` is merged into every counter, with `skipped_pdfs`
incremented when its status is `skipped_already_processed`. -/
def mergeDoc (r : RunCounters) (o : Except String DocStats) : RunCounters :=
  match o with
  | .error _ => r
  | .ok s =>
    ⟨r.total_pdfs, r.processed_pdfs + 1,
     r.skipped_pdfs + (if s.status = "skipped_already_processed" then 1 else 0),
     r.total_pages + s.total_pages,
     r.successful_pages + s.successful_pages,
     r.failed_pages + s.failed_pages,
     r.conventional_pages + s.conventional_pages,
     r.gemini_ocr_pages + s.gemini_ocr_pages,
     r.skipped_pages + s.skipped_pages⟩

/-- The counter part of `process_all_pdfs` (lines 420-494) as a function of
the per-document outcomes in completion order: fold `mergeDoc` starting from
the zeroed counters with `total_pdfs = len(pdf_files)`. -/
def process_all_pdfs_counters (outcomes : List (Except String DocStats)) :
    RunCounters :=
  outcomes.foldl mergeDoc ⟨outcomes.length, 0, 0, 0, 0, 0, 0, 0, 0⟩

/-- A page oracle on which every external call succeeds and the recognition
call returns (parseable or not). -/
def oracleOk (o : PageOracle) : Bool :=
  o.openOk && o.renderOk && o.saveOk &&
    (match o.recognition with
     | .response _ _ => true
     | .fail _ => false)

/-- The error records appended by one `stepStats` step. -/
def pageErrOf (file : String) (pr : PageResult) : List ErrorRecord :=
  if pr.success then []
  else [⟨file, some pr.page, "page_processing", pr.error.getD ""⟩]

/-- The page results and effects produced by `process_pdf` on its
processing path. -/
def docResults (d : DocOracle) : List (PageResult × PageEffects) :=
  runPages d.fs d.pdf_name d.pages 0

/-! ### Helper lemmas -/

theorem process_single_page_skip (fs : List Nat) (o : PageOracle)
    (name : String) (p : Nat) (h : fs.contains (p + 1) = true) :
    process_single_page fs o name p = (⟨p + 1, true, none, true⟩, noEffects) := by
  have h' : (p + 1) ∈ fs := by simpa using h
  simp [process_single_page, h']

theorem process_single_page_ok (fs : List Nat) (o : PageOracle) (name : String)
    (p : Nat) (hfs : fs.contains (p + 1) = false) (h : oracleOk o = true) :
    ∃ r : OCRResult,
      process_single_page fs o name p =
        (⟨p + 1, true, none, false⟩, ⟨1, 1, 1, [(p + 1, r)], []⟩) ∧
      r.extraction_method = "gemini_2.5_flash_ocr" := by
  have h' := h
  simp only [oracleOk, Bool.and_eq_true] at h'
  obtain ⟨⟨⟨ho, hr⟩, hs⟩, hrec⟩ := h'
  cases hm : o.recognition with
  | fail m => rw [hm] at hrec; simp at hrec
  | response raw parsed =>
    have hfs' : ¬ (p + 1) ∈ fs := by simpa using hfs
    cases parsed with
    | none =>
      refine ⟨addMetadata ⟨raw, [], [], [], fallbackStructure, some raw⟩
        name (p + 1), ?_, rfl⟩
      simp [process_single_page, hfs', ho, hr, process_page_image, generate,
        hm, save_page_result, hs]
    | some g =>
      refine ⟨addMetadata ⟨g.text, g.headings, g.tables, g.images,
        g.structure_info, some raw⟩ name (p + 1), ?_, rfl⟩
      simp [process_single_page, hfs', ho, hr, process_page_image, generate,
        hm, save_page_result, hs]

theorem process_single_page_recogfail (fs : List Nat) (o : PageOracle)
    (name : String) (p : Nat) (m : String) (hfs : fs.contains (p + 1) = false)
    (ho : o.openOk = true) (hr : o.renderOk = true)
    (hm : o.recognition = .fail m) :
    process_single_page fs o name p =
      (⟨p + 1, false, some "OCR returned no result", false⟩,
       ⟨1, 1, 1, [],
        [⟨name ++ ".pdf", some (p + 1), "gemini_ocr_processing", m⟩]⟩) := by
  have hfs' : ¬ (p + 1) ∈ fs := by simpa using hfs
  simp [process_single_page, hfs', ho, hr, process_page_image, generate, hm]

theorem process_single_page_not_skipped (fs : List Nat) (o : PageOracle)
    (name : String) (p : Nat) (hfs : fs.contains (p + 1) = false) :
    (process_single_page fs o name p).1.page = p + 1 ∧
    (process_single_page fs o name p).1.skipped = false ∧
    (process_single_page fs o name p).2.opens = 1 := by
  unfold process_single_page
  simp only [hfs, Bool.false_eq_true, if_false]
  split
  · simp
  · split
    · simp
    · split <;> simp_all

theorem process_single_page_success_wrote (fs : List Nat) (o : PageOracle)
    (name : String) (p : Nat) (hfs : fs.contains (p + 1) = false)
    (hs : o.saveOk = true)
    (hsucc : (process_single_page fs o name p).1.success = true) :
    (process_single_page fs o name p).2.wrote.map Prod.fst = [p + 1] := by
  unfold process_single_page at hsucc ⊢
  simp only [hfs, Bool.false_eq_true, if_false] at hsucc ⊢
  split at hsucc
  · simp at hsucc
  · split at hsucc
    · simp at hsucc
    · split at hsucc <;> rename_i heq
      · simp_all [save_page_result]
      · simp_all

theorem runPages_append (fs : List Nat) (name : String)
    (l1 l2 : List PageOracle) (s : Nat) :
    runPages fs name (l1 ++ l2) s =
      runPages fs name l1 s ++ runPages fs name l2 (s + l1.length) := by
  induction l1 generalizing s with
  | nil => simp [runPages]
  | cons o rest ih =>
    have hidx : s + 1 + rest.length = s + (rest.length + 1) := by omega
    simp [runPages, ih, hidx]

theorem runPages_length (fs : List Nat) (name : String)
    (l : List PageOracle) (s : Nat) :
    (runPages fs name l s).length = l.length := by
  induction l generalizing s with
  | nil => rfl
  | cons o rest ih => simp [runPages, ih]

theorem runPages_allOk (name : String) (l : List PageOracle)
    (h : ∀ o ∈ l, oracleOk o = true) (s : Nat) :
    ∀ pr ∈ runPages [] name l s,
      pr.1.success = true ∧ pr.1.skipped = false ∧
      pr.2.errors = [] ∧ pr.2.opens = 1 := by
  induction l generalizing s with
  | nil => simp [runPages]
  | cons o rest ih =>
    intro pr hpr
    simp only [runPages, List.mem_cons] at hpr
    rcases hpr with hpr | hpr
    · obtain ⟨r, heq, -⟩ := process_single_page_ok [] o name s (by simp)
        (h o (by simp))
      rw [hpr, heq]
      exact ⟨rfl, rfl, rfl, rfl⟩
    · exact ih (fun o' ho' => h o' (by simp [ho'])) (s + 1) pr hpr

/-- Splitting a `countP` along a second Boolean predicate. -/
theorem countP_and_split {α} (p q : α → Bool) (l : List α) :
    l.countP p = l.countP (fun a => p a && q a) +
      l.countP (fun a => p a && !q a) := by
  induction l with
  | nil => simp
  | cons a t ih =>
    cases hp : p a <;> cases hq : q a <;>
      simp [List.countP_cons, hp, hq, ih] <;> omega

theorem length_countP_split {α} (p : α → Bool) (l : List α) :
    l.length = l.countP p + l.countP (fun a => !p a) := by
  induction l with
  | nil => simp
  | cons a t ih =>
    cases hp : p a <;> simp [List.countP_cons, hp, ih] <;> omega

theorem foldl_stepStats_successful (file : String) (rs : List PageResult)
    (acc : DocStats × List ErrorRecord) :
    (rs.foldl (stepStats file) acc).1.successful_pages =
      acc.1.successful_pages + rs.countP (fun pr => pr.success) := by
  induction rs generalizing acc with
  | nil => simp
  | cons pr rest ih =>
    rw [List.foldl_cons, ih]
    cases hs : pr.success <;> cases hk : pr.skipped <;>
      simp [stepStats, hs, hk, List.countP_cons] <;> omega

theorem foldl_stepStats_failed (file : String) (rs : List PageResult)
    (acc : DocStats × List ErrorRecord) :
    (rs.foldl (stepStats file) acc).1.failed_pages =
      acc.1.failed_pages + rs.countP (fun pr => !pr.success) := by
  induction rs generalizing acc with
  | nil => simp
  | cons pr rest ih =>
    rw [List.foldl_cons, ih]
    cases hs : pr.success <;> cases hk : pr.skipped <;>
      simp [stepStats, hs, hk, List.countP_cons] <;> omega

theorem foldl_stepStats_skipped (file : String) (rs : List PageResult)
    (acc : DocStats × List ErrorRecord) :
    (rs.foldl (stepStats file) acc).1.skipped_pages =
      acc.1.skipped_pages + rs.countP (fun pr => pr.success && pr.skipped) := by
  induction rs generalizing acc with
  | nil => simp
  | cons pr rest ih =>
    rw [List.foldl_cons, ih]
    cases hs : pr.success <;> cases hk : pr.skipped <;>
      simp [stepStats, hs, hk, List.countP_cons] <;> omega

theorem foldl_stepStats_gemini (file : String) (rs : List PageResult)
    (acc : DocStats × List ErrorRecord) :
    (rs.foldl (stepStats file) acc).1.gemini_ocr_pages =
      acc.1.gemini_ocr_pages + rs.countP (fun pr => pr.success && !pr.skipped) := by
  induction rs generalizing acc with
  | nil => simp
  | cons pr rest ih =>
    rw [List.foldl_cons, ih]
    cases hs : pr.success <;> cases hk : pr.skipped <;>
      simp [stepStats, hs, hk, List.countP_cons] <;> omega

theorem foldl_stepStats_conventional (file : String) (rs : List PageResult)
    (acc : DocStats × List ErrorRecord) :
    (rs.foldl (stepStats file) acc).1.conventional_pages =
      acc.1.conventional_pages := by
  induction rs generalizing acc with
  | nil => rfl
  | cons pr rest ih =>
    rw [List.foldl_cons, ih]
    cases hs : pr.success <;> cases hk : pr.skipped <;> simp [stepStats, hs, hk]

theorem foldl_stepStats_total (file : String) (rs : List PageResult)
    (acc : DocStats × List ErrorRecord) :
    (rs.foldl (stepStats file) acc).1.total_pages = acc.1.total_pages := by
  induction rs generalizing acc with
  | nil => rfl
  | cons pr rest ih =>
    rw [List.foldl_cons, ih]
    cases hs : pr.success <;> cases hk : pr.skipped <;> simp [stepStats, hs, hk]

theorem foldl_stepStats_name (file : String) (rs : List PageResult)
    (acc : DocStats × List ErrorRecord) :
    (rs.foldl (stepStats file) acc).1.pdf_name = acc.1.pdf_name := by
  induction rs generalizing acc with
  | nil => rfl
  | cons pr rest ih =>
    rw [List.foldl_cons, ih]
    cases hs : pr.success <;> cases hk : pr.skipped <;> simp [stepStats, hs, hk]

theorem foldl_stepStats_errors (file : String) (rs : List PageResult)
    (acc : DocStats × List ErrorRecord) :
    (rs.foldl (stepStats file) acc).2 =
      acc.2 ++ rs.flatMap (pageErrOf file) := by
  induction rs generalizing acc with
  | nil => simp
  | cons pr rest ih =>
    rw [List.foldl_cons, ih]
    cases hs : pr.success <;> cases hk : pr.skipped <;>
      simp [stepStats, hs, hk, pageErrOf, List.flatMap_cons]

theorem foldl_addEff_nat (f : PageEffects → Nat)
    (hf : ∀ a b, f (addEff a b) = f a + f b)
    (l : List (PageResult × PageEffects)) (e : PageEffects) :
    f (l.foldl (fun a pr => addEff a pr.2) e) =
      f e + (l.map (fun pr => f pr.2)).sum := by
  induction l generalizing e with
  | nil => simp
  | cons x xs ih =>
    rw [List.foldl_cons, ih, hf]
    simp [Nat.add_assoc]

theorem foldl_addEff_list {α} (f : PageEffects → List α)
    (hf : ∀ a b, f (addEff a b) = f a ++ f b)
    (l : List (PageResult × PageEffects)) (e : PageEffects) :
    f (l.foldl (fun a pr => addEff a pr.2) e) =
      f e ++ l.flatMap (fun pr => f pr.2) := by
  induction l generalizing e with
  | nil => simp
  | cons x xs ih =>
    rw [List.foldl_cons, ih, hf]
    simp [List.flatMap_cons]

/-- Opens performed and skip counts along the page loop: each page with a
pre-existing artifact is skipped (no open), each other page is opened once;
the skipped results are exactly the pages with pre-existing artifacts. -/
theorem runPages_opens_skips (fs : List Nat) (name : String)
    (l : List PageOracle) (s : Nat) :
    ((runPages fs name l s).map (fun pr => pr.2.opens)).sum +
        (List.range' (s + 1) l.length).countP (fun i => decide (i ∈ fs)) =
      l.length ∧
    (runPages fs name l s).countP (fun pr => pr.1.success && pr.1.skipped) =
      (List.range' (s + 1) l.length).countP (fun i => decide (i ∈ fs)) := by
  induction l generalizing s with
  | nil => simp [runPages]
  | cons o rest ih =>
    obtain ⟨h1, h2⟩ := ih (s + 1)
    rw [runPages]
    by_cases h : (s + 1) ∈ fs
    · have hc : fs.contains (s + 1) = true := by simpa using h
      rw [process_single_page_skip fs o name s hc]
      refine ⟨?_, ?_⟩
      · simp only [List.length_cons, List.range'_succ, List.countP_cons,
          List.map_cons, List.sum_cons]
        simp [noEffects, h]
        omega
      · simp only [List.length_cons, List.range'_succ, List.countP_cons]
        simp [h, h2]
    · have h' : fs.contains (s + 1) = false := by simpa using h
      obtain ⟨-, hsk, hop⟩ := process_single_page_not_skipped fs o name s h'
      refine ⟨?_, ?_⟩
      · simp only [List.length_cons, List.range'_succ, List.countP_cons,
          List.map_cons, List.sum_cons, hop]
        simp [h]
        omega
      · simp only [List.length_cons, List.range'_succ, List.countP_cons, hsk]
        simp [h, h2, hsk]

/-- Closed form of `process_pdf` on the processing path (PDF opens, precheck
not complete): every stat is a counter over the page results, and the
effects are the concatenation of the page effects plus the scheduler's
`page_processing` error records. -/
theorem process_pdf_processing (d : DocOracle) (hopen : d.openOk = true)
    (hpre : (is_pdf_already_processed d).1 = false) :
    process_pdf d =
      (⟨d.pdf_name, d.pages.length,
        (docResults d).countP (fun pr => pr.1.success),
        (docResults d).countP (fun pr => !pr.1.success),
        0,
        (docResults d).countP (fun pr => pr.1.success && !pr.1.skipped),
        (docResults d).countP (fun pr => pr.1.success && pr.1.skipped),
        if (docResults d).countP (fun pr => !pr.1.success) = 0 then "completed"
        else "completed_with_errors"⟩,
       ⟨((docResults d).map (fun pr => pr.2.opens)).sum,
        ((docResults d).map (fun pr => pr.2.renders)).sum,
        ((docResults d).map (fun pr => pr.2.recogCalls)).sum,
        (docResults d).flatMap (fun pr => pr.2.wrote),
        (docResults d).flatMap (fun pr => pr.2.errors) ++
          (docResults d).flatMap (fun pr => pageErrOf (d.pdf_name ++ ".pdf") pr.1)⟩) := by
  have hmap : ∀ (a : DocStats × List ErrorRecord),
      (runPages d.fs d.pdf_name d.pages 0).foldl
        (fun acc pr => stepStats (d.pdf_name ++ ".pdf") acc pr.1) a =
      ((runPages d.fs d.pdf_name d.pages 0).map Prod.fst).foldl
        (stepStats (d.pdf_name ++ ".pdf")) a :=
    fun a => (List.foldl_map _ _ _ _).symm
  unfold process_pdf
  simp only [docResults, hpre, hopen, Bool.false_eq_true, Bool.true_eq_false,
    if_false]
  rw [hmap]
  simp only [Prod.mk.injEq, DocStats.mk.injEq, PageEffects.mk.injEq]
  refine ⟨⟨?_, ?_, ?_, ?_, ?_, ?_, ?_, ?_⟩, ?_, ?_, ?_, ?_, ?_⟩
  · exact foldl_stepStats_name _ _ _
  · exact foldl_stepStats_total _ _ _
  · rw [foldl_stepStats_successful, List.countP_map]
    simp only [Nat.zero_add]
    try rfl
  · rw [foldl_stepStats_failed, List.countP_map]
    simp only [Nat.zero_add]
    try rfl
  · exact foldl_stepStats_conventional _ _ _
  · rw [foldl_stepStats_gemini, List.countP_map]
    simp only [Nat.zero_add]
    try rfl
  · rw [foldl_stepStats_skipped, List.countP_map]
    simp only [Nat.zero_add]
    try rfl
  · rw [foldl_stepStats_failed, List.countP_map]
    simp only [Nat.zero_add]
    try rfl
  · rw [foldl_addEff_nat (fun e => e.opens) (fun a b => rfl)]
    simp only [noEffects, Nat.zero_add]
    try rfl
  · rw [foldl_addEff_nat (fun e => e.renders) (fun a b => rfl)]
    simp only [noEffects, Nat.zero_add]
    try rfl
  · rw [foldl_addEff_nat (fun e => e.recogCalls) (fun a b => rfl)]
    simp only [noEffects, Nat.zero_add]
    try rfl
  · rw [foldl_addEff_list (fun e => e.wrote) (fun a b => rfl)]
    simp only [noEffects, List.nil_append]
  · rw [foldl_addEff_list (fun e => e.errors) (fun a b => rfl),
      foldl_stepStats_errors, List.flatMap_map]
    simp only [noEffects, List.nil_append]
    try rfl

/-! ### Claim theorems -/

/-- C2: the extraction method selector `check_page_has_text` is a pure total
function of the page's embedded text (a Lean function: it never raises); it
returns conventional (`true`) iff the cleaned embedded text has length ≥ 50
characters and word count ≥ 10 words (length and word count are taken of the
whitespace-stripped text, exactly as the code computes them); on the
boundary, 50 chars/10 words yields conventional while 49 chars/9 words,
50 chars/9 words and 49 chars/10 words each yield recognition-required. -/
theorem selector_conventional_iff :
    (∀ text : String,
      check_page_has_text text = true ↔
        MIN_TEXT_LENGTH ≤ (pyStrip text.data).length ∧
        MIN_WORDS ≤ pySplitLen (pyStrip text.data)) ∧
    check_page_has_text "aaaa bbbb cccc dddd eeee ffff gggg hhhh iiii jjjjj"
      = true ∧
    check_page_has_text "aaaa bbbb cccc dddd eeee ffff gggg hhhh iiiiiiiii"
      = false ∧
    check_page_has_text "aaaa bbbb cccc dddd eeee ffff gggg hhhh iiiiiiiiii"
      = false ∧
    check_page_has_text "aaaa bbbb cccc dddd eeee ffff gggg hhhh iiii jjjj"
      = false := by
  refine ⟨fun text => ?_, by decide, by decide, by decide, by decide⟩
  simp [check_page_has_text, Bool.and_eq_true, decide_eq_true_eq, ge_iff_le]

/-- C3: a page whose artifact `(document, page_index)` already exists is
reported as a skipped success with no further action at all (no open, no
render, no recognition call, no write, no error record); consequently, for a
document run with K of N page artifacts pre-existing, the skipped counter is
exactly K and exactly N − K pages are actually processed (opened). -/
theorem page_idempotency_frame :
    (∀ (fs : List Nat) (o : PageOracle) (name : String) (p : Nat),
      fs.contains (p + 1) = true →
      process_single_page fs o name p = (⟨p + 1, true, none, true⟩, noEffects)) ∧
    (∀ d : DocOracle, d.openOk = true →
      (is_pdf_already_processed d).1 = false →
      (process_pdf d).1.skipped_pages =
        (List.range' 1 d.pages.length).countP (fun i => decide (i ∈ d.fs)) ∧
      (process_pdf d).2.opens +
        (List.range' 1 d.pages.length).countP (fun i => decide (i ∈ d.fs)) =
        d.pages.length) := by
  refine ⟨process_single_page_skip, fun d hopen hpre => ?_⟩
  rw [process_pdf_processing d hopen hpre]
  dsimp only
  obtain ⟨h1, h2⟩ := runPages_opens_skips d.fs d.pdf_name d.pages 0
  exact ⟨h2, h1⟩

/-- Witness for C3 at concrete inputs: a page with artifact 1 present is
skipped untouched, and a 3-page document with artifact 2 pre-existing
reports 1 skipped page and opens the other 2. -/
theorem page_idempotency_frame_witness :
    (process_single_page [1] ⟨true, true, .response "r" none, true, ""⟩
        "w" 0 = (⟨1, true, none, true⟩, noEffects)) ∧
    ((process_pdf ⟨"w", true, true, [2],
        [⟨true, true, .response "r" none, true, ""⟩,
         ⟨true, true, .response "r" none, true, ""⟩,
         ⟨true, true, .response "r" none, true, ""⟩]⟩).1.skipped_pages =
      (List.range' 1 3).countP (fun i => decide (i ∈ ([2] : List Nat)))) :=
  ⟨page_idempotency_frame.1 [1] ⟨true, true, .response "r" none, true, ""⟩
      "w" 0 (by decide),
   (page_idempotency_frame.2 ⟨"w", true, true, [2],
      [⟨true, true, .response "r" none, true, ""⟩,
       ⟨true, true, .response "r" none, true, ""⟩,
       ⟨true, true, .response "r" none, true, ""⟩]⟩ rfl (by decide)).1⟩

/-- C10: for a document that opens and is not skipped by the resumability
precheck, the returned stats satisfy successful + failed = total,
successful = gemini + skipped, and conventional = 0. -/
theorem doc_stats_invariants (d : DocOracle) (hopen : d.openOk = true)
    (hpre : (is_pdf_already_processed d).1 = false) :
    (process_pdf d).1.successful_pages + (process_pdf d).1.failed_pages =
      (process_pdf d).1.total_pages ∧
    (process_pdf d).1.successful_pages =
      (process_pdf d).1.gemini_ocr_pages + (process_pdf d).1.skipped_pages ∧
    (process_pdf d).1.conventional_pages = 0 := by
  rw [process_pdf_processing d hopen hpre]
  dsimp only
  have hlen : (docResults d).length = d.pages.length := by
    simp [docResults, runPages_length]
  have ht : (docResults d).length =
      (docResults d).countP (fun pr => pr.1.success) +
      (docResults d).countP (fun pr => !pr.1.success) :=
    length_countP_split _ _
  have hs : (docResults d).countP (fun pr => pr.1.success) =
      (docResults d).countP (fun pr => pr.1.success && pr.1.skipped) +
      (docResults d).countP (fun pr => pr.1.success && !pr.1.skipped) :=
    countP_and_split _ _ _
  refine ⟨?_, ?_, rfl⟩ <;> omega

/-- Witness for C10 on a concrete 2-page document (one success, one
recognition failure). -/
theorem doc_stats_invariants_witness :
    (process_pdf ⟨"w", false, true, [],
        [⟨true, true, .response "r" none, true, ""⟩,
         ⟨true, true, .fail "boom", true, ""⟩]⟩).1.successful_pages +
      (process_pdf ⟨"w", false, true, [],
        [⟨true, true, .response "r" none, true, ""⟩,
         ⟨true, true, .fail "boom", true, ""⟩]⟩).1.failed_pages =
      (process_pdf ⟨"w", false, true, [],
        [⟨true, true, .response "r" none, true, ""⟩,
         ⟨true, true, .fail "boom", true, ""⟩]⟩).1.total_pages :=
  (doc_stats_invariants ⟨"w", false, true, [],
      [⟨true, true, .response "r" none, true, ""⟩,
       ⟨true, true, .fail "boom", true, ""⟩]⟩ rfl (by decide)).1

theorem process_page_image_method (o : RecOutcome) (name : String) (pn : Nat)
    (r : OCRResult) (errs : List ErrorRecord)
    (h : process_page_image o name pn = (some r, errs)) :
    r.extraction_method = "gemini_2.5_flash_ocr" := by
  unfold process_page_image at h
  cases hg : generate o with
  | ok g =>
    rw [hg] at h
    simp only [Prod.mk.injEq, Option.some.injEq] at h
    rw [← h.1]
    rfl
  | error e =>
    rw [hg] at h
    simp at h

/-- C5: a recognition response that is not parseable as JSON does not fail
the page: the Page Worker reports success and persists a Result whose `text`
is the raw response, whose headings/tables/images are empty, whose structure
booleans are all false, and whose `raw_response` is the raw response; no
error record is appended; and a document consisting of that page counts it
as a success (recognized), with no error record at the document level. -/
theorem malformed_response_degrades (fs : List Nat) (o : PageOracle)
    (name : String) (p : Nat) (raw : String)
    (hfs : fs.contains (p + 1) = false)
    (ho : o.openOk = true) (hr : o.renderOk = true) (hs : o.saveOk = true)
    (hm : o.recognition = .response raw none) :
    process_single_page fs o name p =
      (⟨p + 1, true, none, false⟩,
       ⟨1, 1, 1,
        [(p + 1,
          ⟨raw, [], [], [], fallbackStructure, name, p + 1, some 300,
           "gemini_2.5_flash_ocr", "gemini-2.5-flash", some raw⟩)], []⟩) ∧
    (process_pdf ⟨name, false, true, [], [o]⟩).1.successful_pages = 1 ∧
    (process_pdf ⟨name, false, true, [], [o]⟩).1.failed_pages = 0 ∧
    (process_pdf ⟨name, false, true, [], [o]⟩).1.gemini_ocr_pages = 1 ∧
    (process_pdf ⟨name, false, true, [], [o]⟩).2.errors = [] := by
  have key : ∀ (fs' : List Nat) (p' : Nat), ¬ (p' + 1) ∈ fs' →
      process_single_page fs' o name p' =
        (⟨p' + 1, true, none, false⟩,
         ⟨1, 1, 1,
          [(p' + 1,
            ⟨raw, [], [], [], fallbackStructure, name, p' + 1, some 300,
             "gemini_2.5_flash_ocr", "gemini-2.5-flash", some raw⟩)], []⟩) := by
    intro fs' p' hin
    simp [process_single_page, hin, ho, hr, process_page_image, generate, hm,
      save_page_result, hs, addMetadata]
  have hfs' : ¬ (p + 1) ∈ fs := by simpa using hfs
  have hd : (is_pdf_already_processed ⟨name, false, true, [], [o]⟩).1 = false := by
    simp [is_pdf_already_processed]
  have hproc := process_pdf_processing ⟨name, false, true, [], [o]⟩ rfl hd
  have hres : docResults ⟨name, false, true, [], [o]⟩ =
      [(⟨1, true, none, false⟩,
        ⟨1, 1, 1,
         [(1, ⟨raw, [], [], [], fallbackStructure, name, 1, some 300,
           "gemini_2.5_flash_ocr", "gemini-2.5-flash", some raw⟩)], []⟩)] := by
    simp only [docResults, runPages]
    rw [key [] 0 (by simp)]
  refine ⟨key fs p hfs', ?_, ?_, ?_, ?_⟩ <;>
    · rw [hproc]
      dsimp only
      rw [hres]
      simp [pageErrOf]

/-- Witness for C5 at a concrete page: unparseable response `"not json"`,
everything else succeeding. -/
theorem malformed_response_degrades_witness :
    process_single_page [] ⟨true, true, .response "not json" none, true, ""⟩
        "w" 0 =
      (⟨1, true, none, false⟩,
       ⟨1, 1, 1,
        [(1, ⟨"not json", [], [], [], fallbackStructure, "w", 1, some 300,
          "gemini_2.5_flash_ocr", "gemini-2.5-flash", some "not json"⟩)],
        []⟩) :=
  (malformed_response_degrades []
    ⟨true, true, .response "not json" none, true, ""⟩ "w" 0 "not json"
    rfl rfl rfl rfl rfl).1

/-- C6 counterexample: a page whose extraction succeeds but whose artifact
write fails is reported as a success (`success = true`) with nothing
written — the claim says it must be reported as a failure and never as a
success. -/
theorem save_failure_counterexample :
    (process_single_page []
        ⟨true, true, .response "resp" none, false, ""⟩ "doc" 0).1.success
      = true ∧
    (process_single_page []
        ⟨true, true, .response "resp" none, false, ""⟩ "doc" 0).2.wrote
      = [] := by
  exact ⟨rfl, rfl⟩

/-- C6 amended: when the artifact write fails, an error record with the
dedicated stage tag `save_result` (distinct from the extraction-failure
stages `gemini_ocr_processing` and `page_processing`) is appended and
nothing is written, but the Page Worker still reports the page as a
success. -/
theorem save_failure_reported_success (fs : List Nat) (o : PageOracle)
    (name : String) (p : Nat) (raw : String) (parsed : Option GenResult)
    (hfs : fs.contains (p + 1) = false)
    (ho : o.openOk = true) (hr : o.renderOk = true)
    (hm : o.recognition = .response raw parsed)
    (hs : o.saveOk = false) :
    (process_single_page fs o name p).1 = ⟨p + 1, true, none, false⟩ ∧
    (process_single_page fs o name p).2.wrote = [] ∧
    (process_single_page fs o name p).2.errors =
      [⟨name ++ ".pdf", some (p + 1), "save_result", "save failed"⟩] ∧
    ("save_result" : String) ≠ "gemini_ocr_processing" ∧
    ("save_result" : String) ≠ "page_processing" := by
  have hfs' : ¬ (p + 1) ∈ fs := by simpa using hfs
  cases parsed with
  | none =>
    refine ⟨?_, ?_, ?_, by decide, by decide⟩ <;>
      simp [process_single_page, hfs', ho, hr, process_page_image, generate,
        hm, save_page_result, hs]
  | some g =>
    refine ⟨?_, ?_, ?_, by decide, by decide⟩ <;>
      simp [process_single_page, hfs', ho, hr, process_page_image, generate,
        hm, save_page_result, hs]

/-- Witness for the amended C6 at a concrete page with a failing save. -/
theorem save_failure_reported_success_witness :
    (process_single_page []
        ⟨true, true, .response "resp" none, false, ""⟩ "doc" 0).2.errors =
      [⟨"doc" ++ ".pdf", some 1, "save_result", "save failed"⟩] :=
  (save_failure_reported_success []
    ⟨true, true, .response "resp" none, false, ""⟩ "doc" 0 "resp" none
    rfl rfl rfl rfl rfl).2.2.1

/-- C1 counterexample: a page with rich embedded text (≥ 50 chars, ≥ 10
words — the selector itself returns conventional on it) is nevertheless
processed by a recognition call: the Page Worker never asks the selector;
the persisted Result's method tag is `gemini_2.5_flash_ocr`, not
`conventional`, one recognition call is issued, and the document counts the
page under the recognition counter with the conventional counter at 0. -/
theorem rich_text_page_counterexample :
    check_page_has_text
      "aaaa bbbb cccc dddd eeee ffff gggg hhhh iiii jjjjj" = true ∧
    (process_pdf ⟨"doc", false, true, [],
      [⟨true, true, .response "resp" none, true,
        "aaaa bbbb cccc dddd eeee ffff gggg hhhh iiii jjjjj"⟩]⟩).1.conventional_pages
      = 0 ∧
    (process_pdf ⟨"doc", false, true, [],
      [⟨true, true, .response "resp" none, true,
        "aaaa bbbb cccc dddd eeee ffff gggg hhhh iiii jjjjj"⟩]⟩).1.gemini_ocr_pages
      = 1 ∧
    (process_pdf ⟨"doc", false, true, [],
      [⟨true, true, .response "resp" none, true,
        "aaaa bbbb cccc dddd eeee ffff gggg hhhh iiii jjjjj"⟩]⟩).2.recogCalls
      = 1 ∧
    (process_pdf ⟨"doc", false, true, [],
      [⟨true, true, .response "resp" none, true,
        "aaaa bbbb cccc dddd eeee ffff gggg hhhh iiii jjjjj"⟩]⟩).2.wrote.map
        (fun x => x.2.extraction_method)
      = ["gemini_2.5_flash_ocr"] ∧
    ("gemini_2.5_flash_ocr" : String) ≠ "conventional" := by
  exact ⟨by decide, rfl, rfl, rfl, rfl, by decide⟩

/-- C1 amended: the Gemini Page Worker never consults the Extraction Method
Selector — its behaviour is independent of the page's embedded text; every
artifact it writes carries the recognition method tag
`gemini_2.5_flash_ocr`; and the conventional counter of every document run
is 0. -/
theorem selector_never_consulted :
    (∀ (fs : List Nat) (o : PageOracle) (name : String) (p : Nat) (t : String),
      process_single_page fs
          ⟨o.openOk, o.renderOk, o.recognition, o.saveOk, t⟩ name p =
        process_single_page fs o name p) ∧
    (∀ (fs : List Nat) (o : PageOracle) (name : String) (p : Nat)
        (x : Nat × OCRResult),
      x ∈ (process_single_page fs o name p).2.wrote →
      x.2.extraction_method = "gemini_2.5_flash_ocr") ∧
    (∀ d : DocOracle, (process_pdf d).1.conventional_pages = 0) := by
  refine ⟨fun fs o name p t => rfl, ?_, ?_⟩
  · intro fs o name p x hx
    by_cases hc : (p + 1) ∈ fs
    · rw [process_single_page_skip fs o name p (by simpa using hc)] at hx
      simp [noEffects] at hx
    · have hc' : fs.contains (p + 1) = false := by simpa using hc
      unfold process_single_page at hx
      simp only [hc', Bool.false_eq_true, if_false] at hx
      split at hx
      · simp at hx
      · split at hx
        · simp at hx
        · split at hx <;> rename_i r' errs heq
          · cases hsv : o.saveOk with
            | true =>
              simp only [save_page_result, hsv, if_true, List.mem_singleton]
                at hx
              rw [hx]
              exact process_page_image_method o.recognition name (p + 1) r'
                errs heq
            | false =>
              simp [save_page_result, hsv] at hx
          · simp at hx
  · intro d
    by_cases hpre : (is_pdf_already_processed d).1 = true
    · unfold process_pdf
      simp only [hpre, if_true]
    · have hpre' : (is_pdf_already_processed d).1 = false := by simpa using hpre
      by_cases hopen : d.openOk = true
      · rw [process_pdf_processing d hopen hpre']
      · have hopen' : d.openOk = false := by simpa using hopen
        unfold process_pdf
        simp only [hpre, hpre', hopen', Bool.false_eq_true, if_false, if_true]

/-- Witness for the amended C1: the artifact written for a concrete page
carries the recognition method tag. -/
theorem selector_never_consulted_witness :
    ((1 : Nat),
      (⟨"r", [], [], [], fallbackStructure, "w", 1, some 300,
        "gemini_2.5_flash_ocr", "gemini-2.5-flash", some "r"⟩ : OCRResult)).2.extraction_method
      = "gemini_2.5_flash_ocr" :=
  selector_never_consulted.2.1 []
    ⟨true, true, .response "r" none, true, ""⟩ "w" 0
    (1, ⟨"r", [], [], [], fallbackStructure, "w", 1, some 300,
      "gemini_2.5_flash_ocr", "gemini-2.5-flash", some "r"⟩)
    (by simp [process_single_page, process_page_image, generate,
      save_page_result, addMetadata])

/-- C7 counterexample: on the spec's own scenario (3 pages, page 3's
recognition call fails, the others succeed) the document stats are as the
claim says (failed 1, successful 2, `completed_with_errors`), but TWO error
records are produced for the failing page (stages `gemini_ocr_processing`
and `page_processing`), not exactly one. -/
theorem single_failure_error_count_counterexample :
    (process_pdf ⟨"doc", false, true, [],
      [⟨true, true, .response "r" none, true, ""⟩,
       ⟨true, true, .response "r" none, true, ""⟩,
       ⟨true, true, .fail "boom", true, ""⟩]⟩).1.failed_pages = 1 ∧
    (process_pdf ⟨"doc", false, true, [],
      [⟨true, true, .response "r" none, true, ""⟩,
       ⟨true, true, .response "r" none, true, ""⟩,
       ⟨true, true, .fail "boom", true, ""⟩]⟩).1.successful_pages = 2 ∧
    (process_pdf ⟨"doc", false, true, [],
      [⟨true, true, .response "r" none, true, ""⟩,
       ⟨true, true, .response "r" none, true, ""⟩,
       ⟨true, true, .fail "boom", true, ""⟩]⟩).1.status
      = "completed_with_errors" ∧
    (process_pdf ⟨"doc", false, true, [],
      [⟨true, true, .response "r" none, true, ""⟩,
       ⟨true, true, .response "r" none, true, ""⟩,
       ⟨true, true, .fail "boom", true, ""⟩]⟩).2.errors.countP
        (fun e => e.page == some 3) = 2 ∧
    ¬ (process_pdf ⟨"doc", false, true, [],
      [⟨true, true, .response "r" none, true, ""⟩,
       ⟨true, true, .response "r" none, true, ""⟩,
       ⟨true, true, .fail "boom", true, ""⟩]⟩).2.errors.countP
        (fun e => e.page == some 3) = 1 := by
  exact ⟨rfl, rfl, rfl, by decide, by decide⟩

/-- C7 amended: for a fresh document of N pages in which exactly one page's
recognition call fails and every other page fully succeeds, the stats have
failed = 1, successful = N − 1 and status `completed_with_errors`, the
failure never escapes the page worker (the scheduler is a total function of
the page outcomes), and exactly TWO error records are produced, both for
the failing page: one with stage `gemini_ocr_processing` and one with stage
`page_processing`. -/
theorem single_failure_isolation (name : String) (l1 l2 : List PageOracle)
    (bad : PageOracle) (m : String)
    (h1 : ∀ o ∈ l1, oracleOk o = true) (h2 : ∀ o ∈ l2, oracleOk o = true)
    (hbo : bad.openOk = true) (hbr : bad.renderOk = true)
    (hbm : bad.recognition = .fail m) :
    (process_pdf ⟨name, false, true, [], l1 ++ bad :: l2⟩).1.failed_pages
      = 1 ∧
    (process_pdf ⟨name, false, true, [], l1 ++ bad :: l2⟩).1.successful_pages
      = l1.length + l2.length ∧
    (process_pdf ⟨name, false, true, [], l1 ++ bad :: l2⟩).1.status
      = "completed_with_errors" ∧
    (process_pdf ⟨name, false, true, [], l1 ++ bad :: l2⟩).2.errors =
      [⟨name ++ ".pdf", some (l1.length + 1), "gemini_ocr_processing", m⟩,
       ⟨name ++ ".pdf", some (l1.length + 1), "page_processing",
        "OCR returned no result"⟩] := by
  have hpre : (is_pdf_already_processed
      ⟨name, false, true, [], l1 ++ bad :: l2⟩).1 = false := by
    simp [is_pdf_already_processed]
  have hproc := process_pdf_processing
    ⟨name, false, true, [], l1 ++ bad :: l2⟩ rfl hpre
  have hbadres := process_single_page_recogfail [] bad name l1.length m
    (by simp) hbo hbr hbm
  have hsplit : docResults ⟨name, false, true, [], l1 ++ bad :: l2⟩ =
      runPages [] name l1 0 ++
        ((⟨l1.length + 1, false, some "OCR returned no result", false⟩,
          ⟨1, 1, 1, [],
           [⟨name ++ ".pdf", some (l1.length + 1), "gemini_ocr_processing",
             m⟩]⟩) ::
          runPages [] name l2 (l1.length + 1)) := by
    simp only [docResults, runPages_append, Nat.zero_add, runPages]
    rw [hbadres]
  have hA := runPages_allOk name l1 h1 0
  have hB := runPages_allOk name l2 h2 (l1.length + 1)
  have hAsucc : (runPages [] name l1 0).countP (fun pr => pr.1.success)
      = l1.length := by
    rw [List.countP_eq_length.mpr (fun pr h => by simp [(hA pr h).1]),
      runPages_length]
  have hAfail : (runPages [] name l1 0).countP (fun pr => !pr.1.success)
      = 0 :=
    List.countP_eq_zero.mpr (fun pr h => by simp [(hA pr h).1])
  have hBsucc : (runPages [] name l2 (l1.length + 1)).countP
      (fun pr => pr.1.success) = l2.length := by
    rw [List.countP_eq_length.mpr (fun pr h => by simp [(hB pr h).1]),
      runPages_length]
  have hBfail : (runPages [] name l2 (l1.length + 1)).countP
      (fun pr => !pr.1.success) = 0 :=
    List.countP_eq_zero.mpr (fun pr h => by simp [(hB pr h).1])
  have hAerr : (runPages [] name l1 0).flatMap (fun pr => pr.2.errors)
      = [] :=
    List.flatMap_eq_nil_iff.mpr (fun pr h => (hA pr h).2.2.1)
  have hBerr : (runPages [] name l2 (l1.length + 1)).flatMap
      (fun pr => pr.2.errors) = [] :=
    List.flatMap_eq_nil_iff.mpr (fun pr h => (hB pr h).2.2.1)
  have hAperr : (runPages [] name l1 0).flatMap
      (fun pr => pageErrOf (name ++ ".pdf") pr.1) = [] :=
    List.flatMap_eq_nil_iff.mpr
      (fun pr h => by simp [pageErrOf, (hA pr h).1])
  have hBperr : (runPages [] name l2 (l1.length + 1)).flatMap
      (fun pr => pageErrOf (name ++ ".pdf") pr.1) = [] :=
    List.flatMap_eq_nil_iff.mpr
      (fun pr h => by simp [pageErrOf, (hB pr h).1])
  have hfailed : (docResults
      ⟨name, false, true, [], l1 ++ bad :: l2⟩).countP
        (fun pr => !pr.1.success) = 1 := by
    rw [hsplit]
    simp [List.countP_append, List.countP_cons, hAfail, hBfail]
  refine ⟨?_, ?_, ?_, ?_⟩
  · rw [hproc]
    dsimp only
    exact hfailed
  · rw [hproc]
    dsimp only
    rw [hsplit]
    simp [List.countP_append, List.countP_cons, hAsucc, hBsucc]
  · rw [hproc]
    dsimp only
    rw [hfailed]
    rfl
  · rw [hproc]
    dsimp only
    rw [hsplit]
    rw [List.flatMap_append, List.flatMap_cons, List.flatMap_append,
      List.flatMap_cons, hAerr, hBerr, hAperr, hBperr]
    simp [pageErrOf]

/-- Witness for the amended C7: a concrete 3-page document whose middle
page's recognition call fails. -/
theorem single_failure_isolation_witness :
    (process_pdf ⟨"w", false, true, [],
      [⟨true, true, .response "r" none, true, ""⟩] ++
        ⟨true, true, .fail "boom", true, ""⟩ ::
          [⟨true, true, .response "r" none, true, ""⟩]⟩).1.failed_pages
      = 1 :=
  (single_failure_isolation "w"
    [⟨true, true, .response "r" none, true, ""⟩]
    [⟨true, true, .response "r" none, true, ""⟩]
    ⟨true, true, .fail "boom", true, ""⟩ "boom"
    (by intro o ho; simp at ho; rw [ho]; rfl)
    (by intro o ho; simp at ho; rw [ho]; rfl)
    rfl rfl rfl).1

theorem process_pdf_skip (d : DocOracle) (hdir : d.resultsDirExists = true)
    (hopen : d.openOk = true) (hge : d.pages.length ≤ d.fs.length) :
    process_pdf d =
      (⟨d.pdf_name, d.pages.length, d.fs.length, 0, 0, d.fs.length, 0,
        "skipped_already_processed"⟩, noEffects) := by
  have hpre : is_pdf_already_processed d =
      (true, d.pages.length, d.fs.length) := by
    unfold is_pdf_already_processed
    simp [hdir, hopen, hge]
  unfold process_pdf
  simp [hpre]

/-- Every page index of the loop ends with an artifact: it either had one
before the run or the run wrote one (given the saves succeed and every
result is a success). -/
theorem runPages_coverage (fs : List Nat) (name : String)
    (l : List PageOracle) (s : Nat)
    (hsave : ∀ o ∈ l, o.saveOk = true)
    (hsucc : ∀ pr ∈ runPages fs name l s, pr.1.success = true) :
    ∀ i ∈ List.range' (s + 1) l.length,
      i ∈ fs ∨
        i ∈ (runPages fs name l s).flatMap
          (fun pr => pr.2.wrote.map Prod.fst) := by
  induction l generalizing s with
  | nil => simp
  | cons o rest ih =>
    intro i hi
    rw [List.length_cons, List.range'_succ] at hi
    rcases List.mem_cons.mp hi with rfl | hi'
    · by_cases hc : (s + 1) ∈ fs
      · exact Or.inl hc
      · right
        have hc' : fs.contains (s + 1) = false := by simpa using hc
        have hsu : (process_single_page fs o name s).1.success = true :=
          hsucc _ (by rw [runPages]; exact List.mem_cons_self _ _)
        have hw := process_single_page_success_wrote fs o name s hc'
          (hsave o (by simp)) hsu
        rw [runPages, List.flatMap_cons, hw]
        simp
    · have hrec := ih (s + 1) (fun o' h => hsave o' (by simp [h]))
        (fun pr h => hsucc pr (by rw [runPages]; exact List.mem_cons_of_mem _ h))
        i hi'
      rcases hrec with h | h
      · exact Or.inl h
      · right
        rw [runPages, List.flatMap_cons]
        exact List.mem_append_right _ h

/-- C4: (a) when the count of existing page artifacts equals the document's
page count (results directory present, PDF opens), `process_pdf` returns
immediately with status `skipped_already_processed` and performs no page
work at all (no opens, renders, recognition calls, writes or errors);
(b) running the scheduler again on a document whose first run had no failed
pages (all saves succeeding) yields `skipped_already_processed` and zero new
recognition calls. -/
theorem resumability_precheck_idempotent :
    (∀ d : DocOracle, d.resultsDirExists = true → d.openOk = true →
      d.fs.length = d.pages.length →
      process_pdf d =
        (⟨d.pdf_name, d.pages.length, d.fs.length, 0, 0, d.fs.length, 0,
          "skipped_already_processed"⟩, noEffects)) ∧
    (∀ d : DocOracle, d.openOk = true →
      (d.resultsDirExists = false → d.fs = []) →
      (∀ o ∈ d.pages, o.saveOk = true) →
      0 < d.pages.length →
      (process_pdf d).1.failed_pages = 0 →
      (process_pdf (afterRun d)).1.status = "skipped_already_processed" ∧
      (process_pdf (afterRun d)).2 = noEffects) := by
  constructor
  · intro d hdir hopen heq
    exact process_pdf_skip d hdir hopen (le_of_eq heq.symm)
  · intro d hopen hco hsave hN hfail
    by_cases hpre : (is_pdf_already_processed d).1 = true
    · have hdir : d.resultsDirExists = true := by
        by_contra hx
        have hx' : d.resultsDirExists = false := by simpa using hx
        unfold is_pdf_already_processed at hpre
        simp [hx'] at hpre
      have hge : d.pages.length ≤ d.fs.length := by
        unfold is_pdf_already_processed at hpre
        simp [hdir, hopen] at hpre
        exact hpre
      have h1 := process_pdf_skip d hdir hopen hge
      have hdir' : (afterRun d).resultsDirExists = true := by
        simp [afterRun, h1, hdir]
      have hopen' : (afterRun d).openOk = true := by
        simp [afterRun, hopen]
      have hge' : (afterRun d).pages.length ≤ (afterRun d).fs.length := by
        simp only [afterRun, h1]
        simpa [noEffects] using hge
      rw [process_pdf_skip (afterRun d) hdir' hopen' hge']
      exact ⟨rfl, rfl⟩
    · have hpre' : (is_pdf_already_processed d).1 = false := by
        simpa using hpre
      have hproc := process_pdf_processing d hopen hpre'
      have hfail' : (docResults d).countP (fun pr => !pr.1.success) = 0 := by
        rw [hproc] at hfail
        exact hfail
      have hallsucc : ∀ pr ∈ docResults d, pr.1.success = true := by
        intro pr hpr
        have := List.countP_eq_zero.mp hfail' pr hpr
        simpa using this
      have hwrote : (process_pdf d).2.wrote =
          (docResults d).flatMap (fun pr => pr.2.wrote) := by
        rw [hproc]
      have hsub : List.range' 1 d.pages.length ⊆
          d.fs ++ ((process_pdf d).2.wrote.map Prod.fst) := by
        intro i hi
        rcases runPages_coverage d.fs d.pdf_name d.pages 0 hsave
            (fun pr h => hallsucc pr h) i hi with h | h
        · exact List.mem_append_left _ h
        · refine List.mem_append_right _ ?_
          rw [hwrote, List.map_flatMap]
          exact h
      have hlen : d.pages.length ≤
          (d.fs ++ ((process_pdf d).2.wrote.map Prod.fst)).length := by
        have := (List.subperm_of_subset (List.nodup_range' _ _) hsub).length_le
        simpa using this
      have h1mem : (1 : Nat) ∈ List.range' 1 d.pages.length := by
        simp [List.mem_range']
        omega
      have hdir' : (afterRun d).resultsDirExists = true := by
        cases hdx : d.resultsDirExists with
        | true => simp [afterRun, hdx]
        | false =>
          have hfs0 : d.fs = [] := hco hdx
          rcases List.mem_append.mp (hsub h1mem) with h | h
          · rw [hfs0] at h
            simp at h
          · simp only [afterRun, hdx, Bool.false_or]
            rcases List.mem_map.mp h with ⟨x, hx, -⟩
            cases hwl : (process_pdf d).2.wrote with
            | nil => rw [hwl] at hx; simp at hx
            | cons a t => simp
      have hopen' : (afterRun d).openOk = true := by
        simp [afterRun, hopen]
      have hge' : (afterRun d).pages.length ≤ (afterRun d).fs.length := by
        simp only [afterRun]
        simpa using hlen
      rw [process_pdf_skip (afterRun d) hdir' hopen' hge']
      exact ⟨rfl, rfl⟩

/-- Witness for C4: (a) a 2-page document with both artifacts present is
skipped untouched; (b) after a clean first run of a fresh 1-page document,
the second run is skipped with no effects. -/
theorem resumability_precheck_idempotent_witness :
    (process_pdf ⟨"w", true, true, [1, 2],
        [⟨true, true, .response "r" none, true, ""⟩,
         ⟨true, true, .response "r" none, true, ""⟩]⟩ =
      (⟨"w", 2, 2, 0, 0, 2, 0, "skipped_already_processed"⟩, noEffects)) ∧
    (process_pdf (afterRun ⟨"w2", false, true, [],
        [⟨true, true, .response "r" none, true, ""⟩]⟩)).1.status =
      "skipped_already_processed" :=
  ⟨resumability_precheck_idempotent.1
      ⟨"w", true, true, [1, 2],
        [⟨true, true, .response "r" none, true, ""⟩,
         ⟨true, true, .response "r" none, true, ""⟩]⟩ rfl rfl rfl,
   (resumability_precheck_idempotent.2
      ⟨"w2", false, true, [],
        [⟨true, true, .response "r" none, true, ""⟩]⟩ rfl
      (fun _ => rfl)
      (by intro o ho; simp at ho; rw [ho])
      (by decide) rfl).1⟩

instance : RightCommutative mergeDoc := by
  refine ⟨fun r o1 o2 => ?_⟩
  cases o1 with
  | error e1 => cases o2 <;> simp [mergeDoc]
  | ok s1 =>
    cases o2 with
    | error e2 => simp [mergeDoc]
    | ok s2 =>
      simp only [mergeDoc, RunCounters.mk.injEq]
      repeat' apply And.intro
      all_goals first
      | rfl
      | trivial
      | exact Nat.add_right_comm _ _ _

/-- C8: the aggregation of per-document outcomes into the run counters is a
commutative, order-independent reduction: any permutation of the arrival
order of a fixed multiset of document outcomes yields identical final
counters (total, successful, failed, per-method). -/
theorem runstats_order_independent
    (l l' : List (Except String DocStats)) (h : l.Perm l') :
    process_all_pdfs_counters l = process_all_pdfs_counters l' := by
  unfold process_all_pdfs_counters
  rw [h.length_eq]
  exact h.foldl_eq _

/-- Witness for C8: swapping two concrete document outcomes (one stats
record, one raised exception) leaves the counters unchanged. -/
theorem runstats_order_independent_witness :
    process_all_pdfs_counters
        [.ok ⟨"a", 3, 2, 1, 0, 2, 0, "completed_with_errors"⟩, .error "e"] =
      process_all_pdfs_counters
        [.error "e", .ok ⟨"a", 3, 2, 1, 0, 2, 0, "completed_with_errors"⟩] :=
  runstats_order_independent
    [.ok ⟨"a", 3, 2, 1, 0, 2, 0, "completed_with_errors"⟩, .error "e"]
    [.error "e", .ok ⟨"a", 3, 2, 1, 0, 2, 0, "completed_with_errors"⟩]
    (List.Perm.swap _ _ _)

end OCRGemini
